import Mathlib

/-!
Verification of the healmymind backend's test-scoring and answer-validation
core, shallowly embedded from:
  - src/healmymind/utils.py       (calculate_test_score)
  - src/healmymind/validators.py  (validate_test_answers)
  - src/tests/serializers.py      (SubmitTestSerializer.validate_answers)
  - src/tests/models.py           (Test.TEST_TYPES, Option, Question, ScoringRange)

Answers dictionaries are embedded as association lists `List (String × Int)`
(question identifier string, chosen option value); the Python `str(q.id)` /
`str(q['id'])` conversion is embedded by carrying identifiers as strings.
-/

namespace HealMyMind

/-- Embeds tests/models.py `Option`: an answer option with display text,
integer point value and position. -/
structure AnswerOption where
  text : String
  value : Int
  order : Int
deriving DecidableEq, Repr

/-- Embeds tests/models.py `Question` (with its related options, as the
dict shape consumed by validate_test_answers: keys id, options). The
identifier is carried as the string `str(q.id)`. -/
structure Question where
  id : String
  text : String
  order : Int
  options : List AnswerOption
deriving DecidableEq, Repr

/-- Embeds tests/models.py `ScoringRange`: authored inclusive bounds with a
severity label. -/
structure ScoringRange where
  min_score : Int
  max_score : Int
  severity : String
  description : String
deriving DecidableEq, Repr

/-- Embeds tests/models.py `Test` with its related questions and authored
scoring ranges (the fields the scoring core reads). -/
structure TestDef where
  test_type : String
  questions : List Question
  scoring_ranges : List ScoringRange
deriving DecidableEq, Repr

/-- Embeds tests/models.py `Test.TEST_TYPES`: the supported screening
instrument kinds. -/
def TEST_TYPES : List (String × String) :=
  [("PHQ9", "Depression Screening (PHQ-9)"),
   ("GAD7", "Anxiety Screening (GAD-7)"),
   ("PCL5", "PTSD Screening (PCL-5)")]

/-- One entry of the hard-coded range dictionaries inside
calculate_test_score (utils.py lines 68-81). -/
structure RangeInfo where
  min : Int
  max : Int
  severity : String
deriving DecidableEq, Repr

/-- The hard-coded PHQ9 entry of `scoring_ranges` in calculate_test_score. -/
def phq9Ranges : List RangeInfo :=
  [⟨0, 4, "MINIMAL"⟩, ⟨5, 9, "MILD"⟩, ⟨10, 14, "MODERATE"⟩, ⟨15, 27, "SEVERE"⟩]

/-- The hard-coded GAD7 entry of `scoring_ranges` in calculate_test_score. -/
def gad7Ranges : List RangeInfo :=
  [⟨0, 4, "MINIMAL"⟩, ⟨5, 9, "MILD"⟩, ⟨10, 14, "MODERATE"⟩, ⟨15, 21, "SEVERE"⟩]

/-- Embeds `scoring_ranges.get(test_type, [])` of calculate_test_score:
the hard-coded table lookup, defaulting to the empty list. -/
def scoringRangesFor (test_type : String) : List RangeInfo :=
  if test_type = "PHQ9" then phq9Ranges
  else if test_type = "GAD7" then gad7Ranges
  else []

/-- Embeds the severity scan of calculate_test_score (utils.py lines 84-89):
severity starts as UNKNOWN and the loop breaks at the first range with
`range_info.min <= total_score <= range_info.max`. -/
def findSeverity (total : Int) : List RangeInfo → String
  | [] => "UNKNOWN"
  | r :: rest => if r.min ≤ total ∧ total ≤ r.max then r.severity else findSeverity total rest

/-- Embeds healmymind/utils.py `calculate_test_score`: total is
`sum(answers.values())`, severity is the first-match scan over the
hard-coded table for the test type; returns the (score, severity) pair of
the result dict. -/
def calculate_test_score (answers : List (String × Int)) (test_type : String) : Int × String :=
  let total_score := (answers.map Prod.snd).sum
  (total_score, findSeverity total_score (scoringRangesFor test_type))

/-- The failure outcomes of validate_test_answers: the generic
incomplete-answers error (message 'All questions must be answered.', which
carries no question identifier) and the invalid-answer error (message
parameterised by the question identifier q_id). -/
inductive ValidationError where
  | incompleteAnswers
  | invalidAnswer (q_id : String)
deriving DecidableEq, Repr

/-- Python set equality of the two identifier sets, embedded as mutual
list containment. -/
def sameSet (a b : List String) : Bool :=
  a.all (fun x => b.contains x) && b.all (fun x => a.contains x)

/-- The body of the second loop of validate_test_answers (validators.py
lines 93-102) for one answer entry: `next(...)` looks up the first question
whose identifier string equals the answer key; when one is found, the
answered value must be contained in that question's option values
(otherwise the loop raises); when none is found the loop body does
nothing. -/
def answerValueOk (questions : List Question) (kv : String × Int) : Bool :=
  match questions.find? (fun q => q.id == kv.1) with
  | some q => (q.options.map AnswerOption.value).contains kv.2
  | none => true

/-- Embeds the second loop of validate_test_answers (validators.py lines
92-102): iterate the answers in order and raise the invalid-answer error,
naming the answer key, at the first entry whose value fails the per-entry
check. -/
def checkAnswerValues (questions : List Question) : List (String × Int) → Except ValidationError Unit
  | [] => Except.ok ()
  | kv :: rest =>
    if answerValueOk questions kv then
      checkAnswerValues questions rest
    else
      Except.error (ValidationError.invalidAnswer kv.1)

/-- Embeds healmymind/validators.py `validate_test_answers`: first the
set comparison of question identifiers against answer keys (raising the
generic incomplete-answers error on mismatch), then the per-answer value
check. -/
def validate_test_answers (answers : List (String × Int)) (questions : List Question) :
    Except ValidationError Unit :=
  let question_ids := questions.map Question.id
  let answer_ids := answers.map Prod.fst
  if sameSet question_ids answer_ids then
    checkAnswerValues questions answers
  else
    Except.error ValidationError.incompleteAnswers

/-- Embeds tests/serializers.py `SubmitTestSerializer.validate_answers`
(the public submission path, given the test was found in context): it
compares the answer key set against the question identifier set and, when
they are equal, returns the answers unchanged — no per-value check. -/
def submit_validate_answers (answers : List (String × Int)) (questions : List Question) :
    Except String (List (String × Int)) :=
  let question_ids := questions.map Question.id
  let answer_ids := answers.map Prod.fst
  if sameSet question_ids answer_ids then
    Except.ok answers
  else
    Except.error "All questions must be answered"

end HealMyMind

namespace HealMyMind

def fourPointOptions : List AnswerOption :=
  [⟨"Not at all", 0, 1⟩, ⟨"Several days", 1, 2⟩,
   ⟨"More than half the days", 2, 3⟩, ⟨"Nearly every day", 3, 4⟩]

def phq9Questions : List Question :=
  [⟨"1", "q1", 1, fourPointOptions⟩, ⟨"2", "q2", 2, fourPointOptions⟩,
   ⟨"3", "q3", 3, fourPointOptions⟩, ⟨"4", "q4", 4, fourPointOptions⟩,
   ⟨"5", "q5", 5, fourPointOptions⟩, ⟨"6", "q6", 6, fourPointOptions⟩,
   ⟨"7", "q7", 7, fourPointOptions⟩, ⟨"8", "q8", 8, fourPointOptions⟩,
   ⟨"9", "q9", 9, fourPointOptions⟩]

def answersSum4 : List (String × Int) :=
  [("1", 1), ("2", 1), ("3", 1), ("4", 1), ("5", 0), ("6", 0), ("7", 0), ("8", 0), ("9", 0)]

def answersSum5 : List (String × Int) :=
  [("1", 1), ("2", 1), ("3", 1), ("4", 1), ("5", 1), ("6", 0), ("7", 0), ("8", 0), ("9", 0)]

def answersSum27 : List (String × Int) :=
  [("1", 3), ("2", 3), ("3", 3), ("4", 3), ("5", 3), ("6", 3), ("7", 3), ("8", 3), ("9", 3)]

def answersSum28 : List (String × Int) :=
  [("1", 4), ("2", 3), ("3", 3), ("4", 3), ("5", 3), ("6", 3), ("7", 3), ("8", 3), ("9", 3)]

/-- A submission for the nine-question instrument missing exactly question 1. -/
def answersMissingQ1 : List (String × Int) :=
  [("2", 0), ("3", 0), ("4", 0), ("5", 0), ("6", 0), ("7", 0), ("8", 0), ("9", 0)]

/-- A submission for the nine-question instrument missing exactly question 9. -/
def answersMissingQ9 : List (String × Int) :=
  [("1", 0), ("2", 0), ("3", 0), ("4", 0), ("5", 0), ("6", 0), ("7", 0), ("8", 0)]

/-- A complete submission in which questions 1 and 2 both carry values
outside the 0-3 option set. -/
def answersTwoInvalid : List (String × Int) :=
  [("1", 7), ("2", 9), ("3", 0), ("4", 0), ("5", 0), ("6", 0), ("7", 0), ("8", 0), ("9", 0)]

/-- A complete submission in which every question carries the out-of-domain
value 99. -/
def answersAll99 : List (String × Int) :=
  [("1", 99), ("2", 99), ("3", 99), ("4", 99), ("5", 99), ("6", 99), ("7", 99), ("8", 99), ("9", 99)]

def yesNoOptions : List AnswerOption := [⟨"No", 0, 1⟩, ⟨"Yes", 1, 2⟩]

/-- A PCL5-typed test with one yes/no question and an authored scoring
range covering its whole score domain [0, 1]. -/
def pcl5Test : TestDef :=
  ⟨"PCL5", [⟨"1", "p1", 1, yesNoOptions⟩], [⟨0, 1, "MILD", "whole domain"⟩]⟩

def pcl5Answers : List (String × Int) := [("1", 0)]

/-- Formalises the spec-side coverage condition: the listed inclusive
integer ranges, taken in order, are contiguous and together cover every
integer of the domain [lo, hi]. -/
def contiguousCover : Int → Int → List (Int × Int) → Bool
  | lo, hi, [] => decide (hi < lo)
  | lo, hi, r :: rest =>
    if hi < lo then true
    else decide (r.1 ≤ lo) && decide (lo ≤ r.2) && contiguousCover (r.2 + 1) hi rest

/-- The inclusive bounds of a hard-coded range entry. -/
def rangeBounds (r : RangeInfo) : Int × Int := (r.min, r.max)

/-- The inclusive bounds of an authored ScoringRange row. -/
def authoredBounds (r : ScoringRange) : Int × Int := (r.min_score, r.max_score)

/-- Least element of a list of integers (0 for the empty list). -/
def listMinD : List Int → Int
  | [] => 0
  | x :: xs => xs.foldl min x

/-- Greatest element of a list of integers (0 for the empty list). -/
def listMaxD : List Int → Int
  | [] => 0
  | x :: xs => xs.foldl max x

/-- Least option value of a question. -/
def questionMin (q : Question) : Int := listMinD (q.options.map AnswerOption.value)

/-- Greatest option value of a question. -/
def questionMax (q : Question) : Int := listMaxD (q.options.map AnswerOption.value)

/-- Minimum achievable total score: sum over the questions of the least
option value. -/
def minAchievable (questions : List Question) : Int := (questions.map questionMin).sum

/-- Maximum achievable total score: sum over the questions of the greatest
option value. -/
def maxAchievable (questions : List Question) : Int := (questions.map questionMax).sum

/-- Greatest option value of the first question carrying a given
identifier (0 when no question carries it). -/
def lookupQMax (questions : List Question) (k : String) : Int :=
  match questions.find? (fun q => q.id == k) with
  | some q => questionMax q
  | none => 0

/-- Least option value of the first question carrying a given identifier
(0 when no question carries it). -/
def lookupQMin (questions : List Question) (k : String) : Int :=
  match questions.find? (fun q => q.id == k) with
  | some q => questionMin q
  | none => 0

end HealMyMind

namespace HealMyMind

theorem sameSet_iff (a b : List String) :
    sameSet a b = true ↔ (∀ x ∈ a, x ∈ b) ∧ (∀ x ∈ b, x ∈ a) := by
  simp [sameSet, List.all_eq_true]

theorem foldl_min_le_init (xs : List Int) (x : Int) : xs.foldl min x ≤ x := by
  induction xs generalizing x with
  | nil => simp
  | cons y ys ih => exact le_trans (ih (min x y)) (min_le_left x y)

theorem foldl_min_le_mem {v : Int} (xs : List Int) (x : Int) (hv : v ∈ xs) :
    xs.foldl min x ≤ v := by
  induction xs generalizing x with
  | nil => cases hv
  | cons y ys ih =>
    rcases List.mem_cons.mp hv with rfl | hv
    · exact le_trans (foldl_min_le_init ys (min x v)) (min_le_right x v)
    · exact ih (min x y) hv

theorem init_le_foldl_max (xs : List Int) (x : Int) : x ≤ xs.foldl max x := by
  induction xs generalizing x with
  | nil => simp
  | cons y ys ih => exact le_trans (le_max_left x y) (ih (max x y))

theorem mem_le_foldl_max {v : Int} (xs : List Int) (x : Int) (hv : v ∈ xs) :
    v ≤ xs.foldl max x := by
  induction xs generalizing x with
  | nil => cases hv
  | cons y ys ih =>
    rcases List.mem_cons.mp hv with rfl | hv
    · exact le_trans (le_max_right x v) (init_le_foldl_max ys (max x v))
    · exact ih (max x y) hv

theorem listMinD_le_of_mem {v : Int} {l : List Int} (hv : v ∈ l) : listMinD l ≤ v := by
  cases l with
  | nil => cases hv
  | cons x xs =>
    rcases List.mem_cons.mp hv with rfl | hv
    · exact foldl_min_le_init xs v
    · exact foldl_min_le_mem xs x hv

theorem le_listMaxD_of_mem {v : Int} {l : List Int} (hv : v ∈ l) : v ≤ listMaxD l := by
  cases l with
  | nil => cases hv
  | cons x xs =>
    rcases List.mem_cons.mp hv with rfl | hv
    · exact init_le_foldl_max xs v
    · exact mem_le_foldl_max xs x hv

theorem contiguousCover_sound {total : Int} :
    ∀ (rs : List (Int × Int)) (lo hi : Int), contiguousCover lo hi rs = true →
      lo ≤ total → total ≤ hi → ∃ r ∈ rs, r.1 ≤ total ∧ total ≤ r.2 := by
  intro rs
  induction rs with
  | nil =>
    intro lo hi h h1 h2
    simp only [contiguousCover, decide_eq_true_eq] at h
    omega
  | cons r rest ih =>
    intro lo hi h h1 h2
    simp only [contiguousCover] at h
    by_cases hlo : hi < lo
    · omega
    · rw [if_neg hlo] at h
      simp only [Bool.and_eq_true, decide_eq_true_eq] at h
      obtain ⟨⟨ha, hb⟩, hc⟩ := h
      by_cases hle : total ≤ r.2
      · exact ⟨r, List.mem_cons_self r rest, le_trans ha h1, hle⟩
      · obtain ⟨r2, hr2, hb2⟩ := ih (r.2 + 1) hi hc (by omega) h2
        exact ⟨r2, List.mem_cons_of_mem r hr2, hb2⟩

theorem findSeverity_eq_find? (total : Int) :
    ∀ rs : List RangeInfo,
      findSeverity total rs =
        (match rs.find? (fun r => decide (r.min ≤ total) && decide (total ≤ r.max)) with
          | some r => r.severity
          | none => "UNKNOWN") := by
  intro rs
  induction rs with
  | nil => rfl
  | cons r rest ih =>
    simp only [findSeverity]
    by_cases h : r.min ≤ total ∧ total ≤ r.max
    · rw [if_pos h, List.find?_cons_of_pos _ (by simpa using h)]
    · rw [if_neg h, List.find?_cons_of_neg _ (by simpa [Decidable.not_and_iff_or_not] using h), ih]

theorem findSeverity_ne_of_cover (total : Int) :
    ∀ rs : List RangeInfo, (∃ r ∈ rs, r.min ≤ total ∧ total ≤ r.max) →
      (∀ r ∈ rs, r.severity ≠ "UNKNOWN") → findSeverity total rs ≠ "UNKNOWN" := by
  intro rs
  induction rs with
  | nil =>
    intro hmatch _
    rcases hmatch with ⟨r, hr, _⟩
    cases hr
  | cons r rest ih =>
    intro hmatch hsev
    simp only [findSeverity]
    by_cases h : r.min ≤ total ∧ total ≤ r.max
    · rw [if_pos h]
      exact hsev r (List.mem_cons_self r rest)
    · rw [if_neg h]
      apply ih
      · rcases hmatch with ⟨r2, hr2, hb2⟩
        rcases List.mem_cons.mp hr2 with rfl | hr2
        · exact absurd hb2 h
        · exact ⟨r2, hr2, hb2⟩
      · intro r2 hr2
        exact hsev r2 (List.mem_cons_of_mem r hr2)

theorem findSeverity_unknown_or_mem (total : Int) :
    ∀ rs : List RangeInfo, findSeverity total rs = "UNKNOWN" ∨
      ∃ r ∈ rs, findSeverity total rs = r.severity := by
  intro rs
  induction rs with
  | nil => exact Or.inl rfl
  | cons r rest ih =>
    simp only [findSeverity]
    by_cases h : r.min ≤ total ∧ total ≤ r.max
    · rw [if_pos h]
      exact Or.inr ⟨r, List.mem_cons_self r rest, rfl⟩
    · rw [if_neg h]
      rcases ih with h2 | ⟨r2, hr2, he2⟩
      · exact Or.inl h2
      · exact Or.inr ⟨r2, List.mem_cons_of_mem r hr2, he2⟩

end HealMyMind

namespace HealMyMind

theorem find?_eq_some_of_nodup :
    ∀ questions : List Question, (questions.map Question.id).Nodup →
      ∀ q ∈ questions, questions.find? (fun q2 => q2.id == q.id) = some q := by
  intro questions
  induction questions with
  | nil =>
    intro _ q hq
    cases hq
  | cons p rest ih =>
    intro hn q hq
    rw [List.map_cons, List.nodup_cons] at hn
    rcases List.mem_cons.mp hq with rfl | hq
    · exact List.find?_cons_of_pos rest (by simp)
    · have hne : ¬ (p.id == q.id) = true := by
        simp only [beq_iff_eq]
        intro he
        exact hn.1 (he ▸ List.mem_map_of_mem Question.id hq)
      rw [List.find?_cons_of_neg rest hne]
      exact ih hn.2 q hq

theorem checkAnswerValues_eq (questions : List Question) :
    ∀ answers : List (String × Int),
      checkAnswerValues questions answers =
        (match answers.find? (fun kv => ! answerValueOk questions kv) with
          | some kv => Except.error (ValidationError.invalidAnswer kv.1)
          | none => Except.ok ()) := by
  intro answers
  induction answers with
  | nil => rfl
  | cons kv rest ih =>
    simp only [checkAnswerValues]
    by_cases hok : answerValueOk questions kv = true
    · rw [if_pos hok, List.find?_cons_of_neg rest (by simp [hok])]
      exact ih
    · rw [if_neg hok, List.find?_cons_of_pos rest (by simp [Bool.not_eq_true] at hok ⊢; exact hok)]

theorem validate_ok_iff (answers : List (String × Int)) (questions : List Question) :
    validate_test_answers answers questions = Except.ok () ↔
      sameSet (questions.map Question.id) (answers.map Prod.fst) = true ∧
      ∀ kv ∈ answers, answerValueOk questions kv = true := by
  unfold validate_test_answers
  by_cases hs : sameSet (questions.map Question.id) (answers.map Prod.fst) = true
  · rw [if_pos hs, checkAnswerValues_eq]
    cases hfind : answers.find? (fun kv => ! answerValueOk questions kv) with
    | none =>
      simp only [hs, true_and]
      constructor
      · intro _ kv hkv
        have := List.find?_eq_none.mp hfind kv hkv
        simpa using this
      · intro _
        trivial
    | some kv =>
      simp only [hs, true_and]
      constructor
      · intro h
        cases h
      · intro hall
        have hmem : kv ∈ answers := List.mem_of_find?_eq_some hfind
        have hp := List.find?_some hfind
        rw [Bool.not_eq_true', ← Bool.not_eq_true] at hp
        exact absurd (hall kv hmem) hp
  · rw [if_neg hs]
    constructor
    · intro h
      cases h
    · intro h
      exact absurd h.1 hs

end HealMyMind

namespace HealMyMind

theorem findSeverity_unknown_of_no_match (total : Int) :
    ∀ rs : List RangeInfo, (∀ r ∈ rs, ¬ (r.min ≤ total ∧ total ≤ r.max)) →
      findSeverity total rs = "UNKNOWN" := by
  intro rs
  induction rs with
  | nil => intro _; rfl
  | cons r rest ih =>
    intro h
    simp only [findSeverity]
    rw [if_neg (h r (List.mem_cons_self r rest))]
    exact ih (fun r2 hr2 => h r2 (List.mem_cons_of_mem r hr2))

/-- C4: the total score returned by calculate_test_score is the plain
integer sum of the answer values (no weighting or scaling), and permuting
the entries of the answers mapping does not change the returned
(total score, severity) pair. -/
theorem C4_plain_sum_order_independent (answers answers2 : List (String × Int))
    (test_type : String) (hperm : answers.Perm answers2) :
    (calculate_test_score answers test_type).1 = (answers.map Prod.snd).sum
    ∧ calculate_test_score answers test_type = calculate_test_score answers2 test_type := by
  constructor
  · rfl
  · unfold calculate_test_score
    rw [(hperm.map Prod.snd).sum_eq]

theorem C4_witness :
    (calculate_test_score [("1", 2), ("2", 3)] "PHQ9").1 =
      (([("1", 2), ("2", 3)] : List (String × Int)).map Prod.snd).sum
    ∧ calculate_test_score [("1", 2), ("2", 3)] "PHQ9" =
        calculate_test_score [("2", 3), ("1", 2)] "PHQ9" :=
  C4_plain_sum_order_independent [("1", 2), ("2", 3)] [("2", 3), ("1", 2)] "PHQ9"
    (List.Perm.swap ("2", 3) ("1", 2) [])

/-- C5: for every test type the hard-coded range list is sorted in
ascending order of its lower bounds, the returned severity is that of the
first range whose inclusive bounds contain the total, and totals exactly
at a range's lower or upper bound (10, 14, 15 for PHQ9) classify into
that range, not the adjacent one. -/
theorem C5_first_match_ascending_inclusive (answers : List (String × Int)) (test_type : String) :
    List.Sorted (fun a b : RangeInfo => a.min ≤ b.min) (scoringRangesFor test_type)
    ∧ (calculate_test_score answers test_type).2 =
        (match (scoringRangesFor test_type).find?
            (fun r => decide (r.min ≤ (answers.map Prod.snd).sum)
              && decide ((answers.map Prod.snd).sum ≤ r.max)) with
          | some r => r.severity
          | none => "UNKNOWN")
    ∧ calculate_test_score [("1", 10)] "PHQ9" = (10, "MODERATE")
    ∧ calculate_test_score [("1", 14)] "PHQ9" = (14, "MODERATE")
    ∧ calculate_test_score [("1", 15)] "PHQ9" = (15, "SEVERE") := by
  refine ⟨?_, ?_, rfl, rfl, rfl⟩
  · unfold scoringRangesFor
    split
    · decide
    · split
      · decide
      · simp
  · exact findSeverity_eq_find? ((answers.map Prod.snd).sum) (scoringRangesFor test_type)

/-- C6: when the total score matches no range of the hard-coded table for
the test type, calculate_test_score returns the sentinel severity UNKNOWN
together with the computed total score (it is a total function and raises
nothing). -/
theorem C6_unmatched_total_unknown (answers : List (String × Int)) (test_type : String)
    (h : ∀ r ∈ scoringRangesFor test_type,
      ¬ (r.min ≤ (answers.map Prod.snd).sum ∧ (answers.map Prod.snd).sum ≤ r.max)) :
    calculate_test_score answers test_type = ((answers.map Prod.snd).sum, "UNKNOWN") := by
  simp only [calculate_test_score]
  rw [findSeverity_unknown_of_no_match ((answers.map Prod.snd).sum) (scoringRangesFor test_type) h]

theorem C6_witness :
    calculate_test_score answersSum28 "PHQ9" = ((answersSum28.map Prod.snd).sum, "UNKNOWN") :=
  C6_unmatched_total_unknown answersSum28 "PHQ9" (by decide)

/-- C7: on the PHQ9 configuration (nine questions with options valued
0-3, hard-coded ranges 0-4 MINIMAL, 5-9 MILD, 10-14 MODERATE, 15-27
SEVERE), answers summing to 4, 5, 27 and 28 score as (4, MINIMAL),
(5, MILD), (27, SEVERE) and (28, UNKNOWN) respectively. -/
theorem C7_phq9_concrete_scenarios :
    calculate_test_score answersSum4 "PHQ9" = (4, "MINIMAL")
    ∧ calculate_test_score answersSum5 "PHQ9" = (5, "MILD")
    ∧ calculate_test_score answersSum27 "PHQ9" = (27, "SEVERE")
    ∧ calculate_test_score answersSum28 "PHQ9" = (28, "UNKNOWN") :=
  ⟨rfl, rfl, rfl, rfl⟩

/-- C8: PCL5 is listed among the supported test types of the data model,
yet for every test type other than PHQ9 and GAD7 (so in particular PCL5)
calculate_test_score resolves severity from its hard-coded table, finds no
entry, and returns UNKNOWN regardless of the total score. -/
theorem C8_hard_coded_table_unknown (answers : List (String × Int)) (test_type : String)
    (h1 : test_type ≠ "PHQ9") (h2 : test_type ≠ "GAD7") :
    "PCL5" ∈ TEST_TYPES.map Prod.fst
    ∧ (calculate_test_score answers test_type).2 = "UNKNOWN" := by
  refine ⟨by decide, ?_⟩
  simp only [calculate_test_score, scoringRangesFor, if_neg h1, if_neg h2]
  rfl

theorem C8_witness :
    "PCL5" ∈ TEST_TYPES.map Prod.fst
    ∧ (calculate_test_score [("1", 5)] "PCL5").2 = "UNKNOWN" :=
  C8_hard_coded_table_unknown [("1", 5)] "PCL5" (by decide) (by decide)

/-- C9: the public submission path's answer validation succeeds exactly
when the answered key set equals the question identifier set; it performs
no per-value check, so a complete submission whose every value (99) is
outside the 0-3 option sets is accepted. -/
theorem C9_submission_path_key_set_only (answers : List (String × Int))
    (questions : List Question) :
    (submit_validate_answers answers questions = Except.ok answers ↔
      sameSet (questions.map Question.id) (answers.map Prod.fst) = true)
    ∧ (∀ kv ∈ answersAll99, answerValueOk phq9Questions kv = false)
    ∧ submit_validate_answers answersAll99 phq9Questions = Except.ok answersAll99 := by
  refine ⟨?_, by decide, rfl⟩
  unfold submit_validate_answers
  by_cases hs : sameSet (questions.map Question.id) (answers.map Prod.fst) = true
  · rw [if_pos hs]
    simp [hs]
  · rw [if_neg hs]
    constructor
    · intro h
      cases h
    · intro h
      exact absurd h hs

/-- C10: calculate_test_score is a total function: on every answers
mapping and test-type string it returns a pair of a score (the plain sum,
0 for the empty mapping) and a severity drawn from the five severity
strings; no error is possible. -/
theorem C10_total_function (answers : List (String × Int)) (test_type : String) :
    (calculate_test_score [] test_type).1 = 0
    ∧ (calculate_test_score answers test_type).1 = (answers.map Prod.snd).sum
    ∧ (calculate_test_score answers test_type).2 ∈
        ["MINIMAL", "MILD", "MODERATE", "SEVERE", "UNKNOWN"] := by
  refine ⟨rfl, rfl, ?_⟩
  have hsev : ∀ r ∈ scoringRangesFor test_type,
      r.severity ∈ ["MINIMAL", "MILD", "MODERATE", "SEVERE", "UNKNOWN"] := by
    unfold scoringRangesFor
    split
    · decide
    · split
      · decide
      · simp
  rcases findSeverity_unknown_or_mem ((answers.map Prod.snd).sum) (scoringRangesFor test_type)
    with h | ⟨r, hr, he⟩
  · show findSeverity ((answers.map Prod.snd).sum) (scoringRangesFor test_type) ∈ _
    rw [h]
    simp
  · show findSeverity ((answers.map Prod.snd).sum) (scoringRangesFor test_type) ∈ _
    rw [he]
    exact hsev r hr

end HealMyMind

namespace HealMyMind

/-- C2 counterexample: the nine-question submissions missing question 1
and missing question 9 fail with the identical generic incomplete-answers
error, so the error cannot name the one missing question identifier; and a
submission in which questions 1 and 2 both carry out-of-domain values
reports only question 1, not every violated question. -/
theorem C2_counterexample :
    validate_test_answers answersMissingQ1 phq9Questions =
      Except.error ValidationError.incompleteAnswers
    ∧ validate_test_answers answersMissingQ9 phq9Questions =
        Except.error ValidationError.incompleteAnswers
    ∧ validate_test_answers answersMissingQ1 phq9Questions =
        validate_test_answers answersMissingQ9 phq9Questions
    ∧ validate_test_answers answersTwoInvalid phq9Questions =
        Except.error (ValidationError.invalidAnswer "1") :=
  ⟨rfl, rfl, rfl, rfl⟩

/-- C2 (amended): validate_test_answers fails fast with the first
violation rather than enumerating all of them: any question-set mismatch
yields the generic incomplete-answers error, which names no question
identifier; otherwise the first answer entry (in mapping order) whose
value is outside its question's option values is the only one reported,
by its question identifier. -/
theorem C2_fail_fast_first_violation (answers : List (String × Int))
    (questions : List Question) :
    validate_test_answers answers questions =
      (if sameSet (questions.map Question.id) (answers.map Prod.fst) then
        (match answers.find? (fun kv => ! answerValueOk questions kv) with
          | some kv => Except.error (ValidationError.invalidAnswer kv.1)
          | none => Except.ok ())
      else Except.error ValidationError.incompleteAnswers) := by
  unfold validate_test_answers
  by_cases hs : sameSet (questions.map Question.id) (answers.map Prod.fst) = true
  · rw [if_pos hs, if_pos hs, checkAnswerValues_eq]
  · rw [if_neg hs, if_neg hs]

/-- C3: given pairwise-distinct question identifiers, validate_test_answers
succeeds exactly when the answer key set equals the question identifier
set and every answered value is among its question's option values. -/
theorem C3_validate_iff (answers : List (String × Int)) (questions : List Question)
    (hnodup : (questions.map Question.id).Nodup) :
    validate_test_answers answers questions = Except.ok () ↔
      ((∀ k ∈ answers.map Prod.fst, k ∈ questions.map Question.id)
        ∧ (∀ k ∈ questions.map Question.id, k ∈ answers.map Prod.fst))
      ∧ ∀ q ∈ questions, ∀ kv ∈ answers, kv.1 = q.id →
          kv.2 ∈ q.options.map AnswerOption.value := by
  rw [validate_ok_iff, sameSet_iff]
  constructor
  · rintro ⟨⟨hqa, haq⟩, hvals⟩
    refine ⟨⟨haq, hqa⟩, ?_⟩
    intro q hq kv hkv hkve
    have hv := hvals kv hkv
    simp only [answerValueOk] at hv
    rw [hkve, find?_eq_some_of_nodup questions hnodup q hq] at hv
    simpa using hv
  · rintro ⟨⟨haq, hqa⟩, hvals⟩
    refine ⟨⟨hqa, haq⟩, ?_⟩
    intro kv hkv
    simp only [answerValueOk]
    cases hfind : questions.find? (fun q2 => q2.id == kv.1) with
    | none => rfl
    | some q =>
      have hqmem : q ∈ questions := List.mem_of_find?_eq_some hfind
      have hid : q.id = kv.1 := by simpa using List.find?_some hfind
      simpa using hvals q hqmem kv hkv hid.symm

theorem C3_witness : validate_test_answers answersSum4 phq9Questions = Except.ok () :=
  (C3_validate_iff answersSum4 phq9Questions (by decide)).mpr (by decide)

end HealMyMind

namespace HealMyMind

theorem total_le_maxAchievable (answers : List (String × Int)) (questions : List Question)
    (hqn : (questions.map Question.id).Nodup)
    (han : (answers.map Prod.fst).Nodup)
    (hkeys : ∀ k ∈ answers.map Prod.fst, k ∈ questions.map Question.id)
    (hqids : ∀ k ∈ questions.map Question.id, k ∈ answers.map Prod.fst)
    (hvals : ∀ kv ∈ answers, answerValueOk questions kv = true) :
    (answers.map Prod.snd).sum ≤ maxAchievable questions := by
  have hperm : (answers.map Prod.fst).Perm (questions.map Question.id) :=
    (List.perm_ext_iff_of_nodup han hqn).mpr
      (fun x => ⟨fun h => hkeys x h, fun h => hqids x h⟩)
  have hb : ∀ kv ∈ answers, Prod.snd kv ≤ lookupQMax questions (Prod.fst kv) := by
    intro kv hkv
    have hv := hvals kv hkv
    simp only [answerValueOk] at hv
    unfold lookupQMax
    cases hfind : questions.find? (fun q => q.id == kv.1) with
    | none =>
      have h1 : kv.1 ∈ questions.map Question.id :=
        hkeys kv.1 (List.mem_map_of_mem Prod.fst hkv)
      obtain ⟨q, hq, hqe⟩ := List.mem_map.mp h1
      have hnone := List.find?_eq_none.mp hfind q hq
      simp [hqe] at hnone
    | some q =>
      rw [hfind] at hv
      simp only at hv
      have hmem : kv.2 ∈ q.options.map AnswerOption.value := by simpa using hv
      exact le_listMaxD_of_mem hmem
  calc (answers.map Prod.snd).sum
      ≤ (answers.map (fun kv => lookupQMax questions (Prod.fst kv))).sum :=
        List.sum_le_sum hb
    _ = ((answers.map Prod.fst).map (lookupQMax questions)).sum := by
        simp only [List.map_map]
        rfl
    _ = ((questions.map Question.id).map (lookupQMax questions)).sum :=
        (hperm.map (lookupQMax questions)).sum_eq
    _ = (questions.map (fun q => lookupQMax questions q.id)).sum := by
        simp only [List.map_map]
        rfl
    _ = (questions.map questionMax).sum := by
        congr 1
        apply List.map_congr_left
        intro q hq
        unfold lookupQMax
        rw [find?_eq_some_of_nodup questions hqn q hq]
    _ = maxAchievable questions := rfl

theorem minAchievable_le_total (answers : List (String × Int)) (questions : List Question)
    (hqn : (questions.map Question.id).Nodup)
    (han : (answers.map Prod.fst).Nodup)
    (hkeys : ∀ k ∈ answers.map Prod.fst, k ∈ questions.map Question.id)
    (hqids : ∀ k ∈ questions.map Question.id, k ∈ answers.map Prod.fst)
    (hvals : ∀ kv ∈ answers, answerValueOk questions kv = true) :
    minAchievable questions ≤ (answers.map Prod.snd).sum := by
  have hperm : (answers.map Prod.fst).Perm (questions.map Question.id) :=
    (List.perm_ext_iff_of_nodup han hqn).mpr
      (fun x => ⟨fun h => hkeys x h, fun h => hqids x h⟩)
  have hb : ∀ kv ∈ answers, lookupQMin questions (Prod.fst kv) ≤ Prod.snd kv := by
    intro kv hkv
    have hv := hvals kv hkv
    simp only [answerValueOk] at hv
    unfold lookupQMin
    cases hfind : questions.find? (fun q => q.id == kv.1) with
    | none =>
      have h1 : kv.1 ∈ questions.map Question.id :=
        hkeys kv.1 (List.mem_map_of_mem Prod.fst hkv)
      obtain ⟨q, hq, hqe⟩ := List.mem_map.mp h1
      have hnone := List.find?_eq_none.mp hfind q hq
      simp [hqe] at hnone
    | some q =>
      rw [hfind] at hv
      simp only at hv
      have hmem : kv.2 ∈ q.options.map AnswerOption.value := by simpa using hv
      exact listMinD_le_of_mem hmem
  calc minAchievable questions
      = (questions.map questionMin).sum := rfl
    _ = (questions.map (fun q => lookupQMin questions q.id)).sum := by
        congr 1
        apply List.map_congr_left
        intro q hq
        unfold lookupQMin
        rw [find?_eq_some_of_nodup questions hqn q hq]
    _ = ((questions.map Question.id).map (lookupQMin questions)).sum := by
        simp only [List.map_map]
        rfl
    _ = ((answers.map Prod.fst).map (lookupQMin questions)).sum :=
        ((hperm.map (lookupQMin questions)).sum_eq).symm
    _ = (answers.map (fun kv => lookupQMin questions (Prod.fst kv))).sum := by
        simp only [List.map_map]
        rfl
    _ ≤ (answers.map Prod.snd).sum := List.sum_le_sum hb

/-- C1 counterexample: a PCL5-typed test whose authored scoring ranges are
contiguous and cover its whole achievable score domain, together with a
submission that passes validate_test_answers, is still scored UNKNOWN,
because calculate_test_score consults only its hard-coded table keyed by
test type. -/
theorem C1_counterexample :
    contiguousCover (minAchievable pcl5Test.questions) (maxAchievable pcl5Test.questions)
        (pcl5Test.scoring_ranges.map authoredBounds) = true
    ∧ validate_test_answers pcl5Answers pcl5Test.questions = Except.ok ()
    ∧ (calculate_test_score pcl5Answers pcl5Test.test_type).2 = "UNKNOWN" :=
  ⟨rfl, rfl, rfl⟩

/-- C1 (amended): when the hard-coded ranges that calculate_test_score
associates with the test type are contiguous and cover the full domain
from the minimum to the maximum achievable sum of option values, scoring
any submission that passed validate_test_answers (over distinct question
identifiers and distinct answer keys) never returns UNKNOWN. -/
theorem C1_amended_no_unknown (answers : List (String × Int)) (questions : List Question)
    (test_type : String)
    (hqn : (questions.map Question.id).Nodup)
    (han : (answers.map Prod.fst).Nodup)
    (hval : validate_test_answers answers questions = Except.ok ())
    (hcov : contiguousCover (minAchievable questions) (maxAchievable questions)
        ((scoringRangesFor test_type).map rangeBounds) = true) :
    (calculate_test_score answers test_type).2 ≠ "UNKNOWN" := by
  obtain ⟨hs, hvals⟩ := (validate_ok_iff answers questions).mp hval
  rw [sameSet_iff] at hs
  have hlo : minAchievable questions ≤ (answers.map Prod.snd).sum :=
    minAchievable_le_total answers questions hqn han hs.2 hs.1 hvals
  have hhi : (answers.map Prod.snd).sum ≤ maxAchievable questions :=
    total_le_maxAchievable answers questions hqn han hs.2 hs.1 hvals
  obtain ⟨rb, hrb, hb1, hb2⟩ :=
    contiguousCover_sound ((scoringRangesFor test_type).map rangeBounds)
      (minAchievable questions) (maxAchievable questions) hcov hlo hhi
  obtain ⟨ri, hri, hrie⟩ := List.mem_map.mp hrb
  have hmatch : ∃ r ∈ scoringRangesFor test_type,
      r.min ≤ (answers.map Prod.snd).sum ∧ (answers.map Prod.snd).sum ≤ r.max := by
    refine ⟨ri, hri, ?_, ?_⟩
    · rw [← hrie] at hb1
      simpa [rangeBounds] using hb1
    · rw [← hrie] at hb2
      simpa [rangeBounds] using hb2
  have hsev : ∀ r ∈ scoringRangesFor test_type, r.severity ≠ "UNKNOWN" := by
    unfold scoringRangesFor
    split
    · decide
    · split
      · decide
      · simp
  exact findSeverity_ne_of_cover ((answers.map Prod.snd).sum) (scoringRangesFor test_type)
    hmatch hsev

theorem C1_witness : (calculate_test_score answersSum4 "PHQ9").2 ≠ "UNKNOWN" :=
  C1_amended_no_unknown answersSum4 phq9Questions "PHQ9" (by decide) (by decide) rfl (by decide)

end HealMyMind
